import Mathlib

/-!
# Verification of the ai-content-planner session core

Shallow embedding of `src/agents/session.py` (class `SessionManager`):
the session data model, the Q&A round operation, content-idea
deduplication, JSON persistence (save/load) and the autosave start/stop
flags.  Pure Python string operations (`str.strip`, `str.lower`,
`str.split`, `len`) are modelled character-by-character over the ASCII
fragment the application manipulates.  The float comparison
`similarity > 0.7` is modelled by the exact rational comparison, which
agrees with the correctly-rounded double comparison for every
realistically sized word set.
-/

namespace AICP

/-- Python's default whitespace test used by `str.strip()` and `str.split()`
(ASCII whitespace characters). -/
def pyIsSpace (c : Char) : Bool :=
  c = ' ' || c = '\t' || c = '\n' || c = '\r' || c = '\x0b' || c = '\x0c'

/-- Python `str.strip()` on the underlying character list: drop whitespace from both
ends. -/
def pyStripList (l : List Char) : List Char :=
  ((l.dropWhile pyIsSpace).reverse.dropWhile pyIsSpace).reverse

/-- Python `s.strip()`. -/
def pyStrip (s : String) : String := ⟨pyStripList s.data⟩

/-- Python `s.lower()` (ASCII letters; the titles handled by the program are ASCII). -/
def pyLower (s : String) : String := ⟨s.data.map Char.toLower⟩

/-- Python `len(s)`: the number of characters. -/
def pyLen (s : String) : Nat := s.data.length

/-- Python `s.split()` with no argument: split on runs of whitespace, discarding
empty fields. -/
def pySplit (s : String) : List String :=
  ((s.data.splitOnP pyIsSpace).filter (fun w => w ≠ [])).map (fun w => ⟨w⟩)

/-- Python `set(s.split())`, as a duplicate-free list (only its size and
intersections are ever used, so iteration order is irrelevant). -/
def pyWordSet (s : String) : List String := (pySplit s).dedup

/-- Size of the intersection of two word sets (both lists duplicate-free). -/
def interCount (a b : List String) : Nat :=
  (a.filter (fun w => b.contains w)).length

/-- An entry of the `content_ideas` list.  The current shape is a dict
`\x7btitle, summary\x7d` (constructor `obj`); the legacy shape, still present in
old persisted files, is a bare string (constructor `str`). -/
inductive StoredIdea where
  | str (s : String)
  | obj (title summary : String)
deriving DecidableEq

/-- Whether an entry has the current dict shape. -/
def StoredIdea.isObj : StoredIdea → Bool
  | .obj _ _ => true
  | .str _ => false

/-- Every entry of the list has the dict shape (the only shape
`add_content_ideas` itself ever appends; on a bare-string entry the Python
scans would raise `AttributeError`). -/
def allObj (l : List StoredIdea) : Bool := l.all StoredIdea.isObj

/-- The dict view of an input entry, `session.py` lines 58-62: a bare string
`s` becomes `\x7b'title': s, 'summary': ''\x7d`; a dict is used as-is (missing keys
read through `.get(key, '')` are modelled as the empty string). -/
structure IdeaDict where
  title : String
  summary : String
deriving DecidableEq

/-- Lines 58-62 of `add_content_ideas`. -/
def toDict : StoredIdea → IdeaDict
  | .str s => ⟨s, ""⟩
  | .obj t su => ⟨t, su⟩

/-- The ratio `len(common_words) / min(len(words_new), len(words_existing))` of line 93,
as an exact rational. -/
def similarity (words_new words_existing : List String) : ℚ :=
  (interCount words_new words_existing : ℚ) /
    (min words_new.length words_existing.length : ℚ)

/-- Lines 86-98 of `add_content_ideas`: the near-duplicate test between the
normalized candidate title and one normalized existing title.  Requires both
normalized lengths > 20 and both word sets > 3 words, then compares
`similarity = |intersection| / min(|words_new|, |words_existing|)` against
`0.7`.  The float comparison `similarity > 0.7` is written here in the
equivalent cross-multiplied integer form `10·|intersection| > 7·min` (exact;
the C1 theorem proves it equal to the rational inequality `similarity >
7/10`, and the correctly rounded double comparison agrees with the exact one
for every word set of sub-astronomic size). -/
def nearDupCheck (title_normalized existing_normalized : String) : Bool :=
  if pyLen title_normalized > 20 && pyLen existing_normalized > 20 then
    let words_new := pyWordSet title_normalized
    let words_existing := pyWordSet existing_normalized
    if words_new.length > 3 && words_existing.length > 3 then
      decide (10 * interCount words_new words_existing >
        7 * min words_new.length words_existing.length)
    else false
  else false

/-- Line 69: `any(existing.get('title', '') == title for existing in
self.content_ideas)`.  Lazily scans the list; a legacy bare-string entry
reached before a match raises `AttributeError` (modelled as `none`). -/
def anyExactDup (title : String) : List StoredIdea → Option Bool
  | [] => some false
  | .str _ :: _ => none
  | .obj t _ :: rest => if t = title then some true else anyExactDup title rest

/-- Lines 76-98: the similarity loop over the existing collection.  Breaks
with `true` on the first normalized-equal or near-duplicate title, returns
`false` if no entry fires; a bare-string entry reached during the scan raises
(modelled as `none`). -/
def isDupLoop (title_normalized : String) : List StoredIdea → Option Bool
  | [] => some false
  | .str _ :: _ => none
  | .obj existing_title _ :: rest =>
    let existing_normalized := pyStrip (pyLower existing_title)
    if title_normalized = existing_normalized then some true
    else if nearDupCheck title_normalized existing_normalized then some true
    else isDupLoop title_normalized rest

/-- The dict appended for a non-duplicate input entry (lines 100-104):
trimmed title, trimmed summary. -/
def storedForm (idea : StoredIdea) : StoredIdea :=
  .obj (pyStrip (toDict idea).title) (pyStrip (toDict idea).summary)

/-- One iteration of the `for idea in ideas` loop of `add_content_ideas`
(lines 57-104), acting on the accumulated collection: normalize the entry to
a dict, trim the title, skip if empty, skip if an exact or near duplicate of
the collection so far, otherwise append the trimmed dict. -/
def processIdea (acc : List StoredIdea) (idea : StoredIdea) :
    Option (List StoredIdea) :=
  let d := toDict idea
  let title := pyStrip d.title
  if title = "" then some acc
  else
    match anyExactDup title acc with
    | none => none
    | some true => some acc
    | some false =>
      let title_normalized := pyStrip (pyLower title)
      match isDupLoop title_normalized acc with
      | none => none
      | some true => some acc
      | some false => some (acc ++ [.obj title (pyStrip d.summary)])

/-- The whole `for` loop of `add_content_ideas`: each candidate is checked
against the collection as it stands at that moment. -/
def addIdeasList : List StoredIdea → List StoredIdea → Option (List StoredIdea)
  | acc, [] => some acc
  | acc, idea :: rest =>
    match processIdea acc idea with
    | none => none
    | some acc2 => addIdeasList acc2 rest

/-- A record of `qa_history` (lines 43-48).  `timestamp` carries the
`datetime.now().isoformat()` string, passed as a parameter of the step. -/
structure QARecord where
  round : Nat
  question : String
  answer : String
  timestamp : String
deriving DecidableEq

/-- The session-state fields of `SessionManager` mutated by the data
operations (`__init__` lines 17-20).  The autosave control fields live in
`AutosaveState` below; `last_save_time` and the output path are not part of
any claim. -/
structure Session where
  product_name : String
  qa_history : List QARecord
  content_ideas : List StoredIdea
  round_count : Nat
deriving DecidableEq

/-- The freshly initialized state (`__init__`). -/
def initSession : Session := ⟨"", [], [], 0⟩

/-- Method `add_qa_round` (lines 33-48): increment `round_count`, then append one
record per `zip(questions, answers)` pair — `zip` silently truncates to the
shorter sequence — stamping each with the new `round_count` and the current
timestamp. -/
def add_qa_round (s : Session) (questions answers : List String)
    (now : String) : Session :=
  { s with
    round_count := s.round_count + 1,
    qa_history := s.qa_history ++
      (questions.zip answers).map
        (fun p => ⟨s.round_count + 1, p.1, p.2, now⟩) }

/-- Method `add_content_ideas` (lines 50-104) at the session level. -/
def add_content_ideas (s : Session) (ideas : List StoredIdea) :
    Option Session :=
  (addIdeasList s.content_ideas ideas).map
    (fun l => { s with content_ideas := l })

/-- A sequence of `add_qa_round` calls, each with its questions, answers and
timestamp. -/
def applyRounds (s : Session) :
    List (List String × List String × String) → Session
  | [] => s
  | c :: rest => applyRounds (add_qa_round s c.1 c.2.1 c.2.2) rest

/-- The JSON document written by `save` (lines 122-128): top-level keys
`product_name`, `rounds`, `qa_history`, `content_ideas`, `last_updated`.
JSON serialization of strings, integers and these flat records is lossless,
so the document is modelled structurally. -/
structure SavedDoc where
  product_name : String
  rounds : Nat
  qa_history : List QARecord
  content_ideas : List StoredIdea
  last_updated : String
deriving DecidableEq

/-- The document `save` serializes from the in-memory state, with
`last_updated = datetime.now().isoformat()` passed as `now`. -/
def saveDoc (s : Session) (now : String) : SavedDoc :=
  ⟨s.product_name, s.round_count, s.qa_history, s.content_ideas, now⟩

/-- Method `save` (lines 114-137): on I/O success writes the document and returns
`True`; any exception is caught and reported as `False` (nothing modelled as
written).  `ioOk` stands for the success of the file write. -/
def save (s : Session) (now : String) (ioOk : Bool) :
    Option SavedDoc × Bool :=
  if ioOk then (some (saveDoc s now), true) else (none, false)

/-- What `load` finds at the configured path: no file, an unreadable or
unparsable file (any exception from `open`/`json.load`/a non-dict top level,
all caught by the `except` block), or a well-formed document. -/
inductive FileState where
  | missing
  | corrupt
  | good (d : SavedDoc)

/-- Method `load` (lines 139-161): `False` if the file does not exist; `False` with
the state untouched on any parse or I/O failure; otherwise repopulate
`product_name`, `qa_history`, `content_ideas`, `round_count` (from the
`rounds` key) exactly as stored — the `content_ideas` entries are assigned
raw, with no reshaping.  Total: every exception is caught inside. -/
def load (s : Session) (f : FileState) : Bool × Session :=
  match f with
  | .missing => (false, s)
  | .corrupt => (false, s)
  | .good d => (true, ⟨d.product_name, d.qa_history, d.content_ideas, d.rounds⟩)

/-- The autosave control fields of `SessionManager`: the `autosave_enabled`
flag and the registered worker thread (identified by a token).  `spawned`
counts how many background threads have ever been started, so that "does not
start a second task" is expressible. -/
structure AutosaveState where
  autosave_enabled : Bool
  autosave_thread : Option Nat
  spawned : Nat
deriving DecidableEq

/-- Method `start_autosave` (lines 195-200): only when the flag is down does it
raise the flag, register a fresh worker thread and start it. -/
def start_autosave (st : AutosaveState) (newThread : Nat) : AutosaveState :=
  if st.autosave_enabled = false then
    { autosave_enabled := true,
      autosave_thread := some newThread,
      spawned := st.spawned + 1 }
  else st

/-- Method `stop_autosave` (lines 202-206): lower the flag (the join does not change
any field). -/
def stop_autosave (st : AutosaveState) : AutosaveState :=
  { st with autosave_enabled := false }

/-! ## Helper lemmas -/

theorem allObj_cons {e : StoredIdea} {l : List StoredIdea} (h : allObj (e :: l) = true) :
    e.isObj = true ∧ allObj l = true := by
  simpa [allObj, List.all_cons, Bool.and_eq_true] using h

theorem allObj_append_obj {l : List StoredIdea} (h : allObj l = true) (t su : String) :
    allObj (l ++ [.obj t su]) = true := by
  simp only [allObj, List.all_append, Bool.and_eq_true] at h ⊢
  exact ⟨h, rfl⟩

theorem anyExactDup_isSome {acc : List StoredIdea} (h : allObj acc = true) (title : String) :
    ∃ b, anyExactDup title acc = some b := by
  induction acc with
  | nil => exact ⟨false, rfl⟩
  | cons e rest ih =>
    obtain ⟨he, hrest⟩ := allObj_cons h
    cases e with
    | str s => simp [StoredIdea.isObj] at he
    | obj t su =>
      by_cases ht : t = title
      · exact ⟨true, by simp [anyExactDup, ht]⟩
      · obtain ⟨b, hb⟩ := ih hrest
        exact ⟨b, by simp [anyExactDup, ht, hb]⟩

theorem isDupLoop_isSome {acc : List StoredIdea} (h : allObj acc = true) (tn : String) :
    ∃ b, isDupLoop tn acc = some b := by
  induction acc with
  | nil => exact ⟨false, rfl⟩
  | cons e rest ih =>
    obtain ⟨he, hrest⟩ := allObj_cons h
    cases e with
    | str s => simp [StoredIdea.isObj] at he
    | obj t su =>
      by_cases h1 : tn = pyStrip (pyLower t)
      · exact ⟨true, by simp [isDupLoop, h1]⟩
      · by_cases h2 : nearDupCheck tn (pyStrip (pyLower t)) = true
        · exact ⟨true, by simp [isDupLoop, h1, h2]⟩
        · obtain ⟨b, hb⟩ := ih hrest
          exact ⟨b, by simp [isDupLoop, h1, h2, hb]⟩

/-- Under an all-dict collection, one loop iteration either leaves the
collection unchanged (skip or duplicate) or appends exactly the trimmed dict
of the input entry. -/
theorem processIdea_cases {acc : List StoredIdea} (h : allObj acc = true) (idea : StoredIdea) :
    processIdea acc idea = some acc ∨
      processIdea acc idea = some (acc ++ [storedForm idea]) := by
  unfold processIdea storedForm
  by_cases h0 : pyStrip (toDict idea).title = ""
  · left; simp [h0]
  · obtain ⟨b1, hb1⟩ := anyExactDup_isSome h (pyStrip (toDict idea).title)
    cases b1 with
    | true => left; simp [h0, hb1]
    | false =>
      obtain ⟨b2, hb2⟩ := isDupLoop_isSome h (pyStrip (pyLower (pyStrip (toDict idea).title)))
      cases b2 with
      | true => left; simp [h0, hb1, hb2]
      | false => right; simp [h0, hb1, hb2]

/-- The loop of `add_content_ideas` over an all-dict collection never raises,
only appends (the original collection is a prefix of the result), and the
appended entries are the trimmed dict forms of a subsequence of the input,
in input order. -/
theorem addIdeasList_spec (ideas : List StoredIdea) :
    ∀ acc : List StoredIdea, allObj acc = true →
      ∃ news, addIdeasList acc ideas = some (acc ++ news) ∧
        news.Sublist (ideas.map storedForm) ∧ allObj (acc ++ news) = true := by
  induction ideas with
  | nil => exact fun acc h => ⟨[], by simp [addIdeasList], by simp, by simpa using h⟩
  | cons idea rest ih =>
    intro acc h
    rcases processIdea_cases h idea with hp | hp
    · obtain ⟨news, h1, h2, h3⟩ := ih acc h
      exact ⟨news, by simp [addIdeasList, hp, h1], h2.cons _, h3⟩
    · have h' : allObj (acc ++ [storedForm idea]) = true :=
        allObj_append_obj h _ _
      obtain ⟨news, h1, h2, h3⟩ := ih (acc ++ [storedForm idea]) h'
      refine ⟨storedForm idea :: news, ?_, h2.cons₂ _, ?_⟩
      · simp only [addIdeasList, hp, List.append_assoc, List.singleton_append] at h1 ⊢
        exact h1
      · simpa [List.append_assoc] using h3

/-- If the collection is all dicts and contains an entry whose normalized
title equals the (already normalized) candidate title, the similarity loop
reports a duplicate. -/
theorem isDupLoop_of_mem {acc : List StoredIdea} (h : allObj acc = true)
    {et esu : String} (hmem : StoredIdea.obj et esu ∈ acc) {tn : String}
    (hn : tn = pyStrip (pyLower et)) : isDupLoop tn acc = some true := by
  induction acc with
  | nil => simp at hmem
  | cons e rest ih =>
    obtain ⟨he, hrest⟩ := allObj_cons h
    cases e with
    | str s => simp [StoredIdea.isObj] at he
    | obj t su =>
      by_cases h1 : tn = pyStrip (pyLower t)
      · simp [isDupLoop, h1]
      · have hmem' : StoredIdea.obj et esu ∈ rest := by
          rcases List.mem_cons.mp hmem with heq | hm
          · exact absurd (by rw [StoredIdea.obj.injEq] at heq; rw [heq.1] at hn; exact hn) h1
          · exact hm
        by_cases h2 : nearDupCheck tn (pyStrip (pyLower t)) = true
        · simp [isDupLoop, h1, h2]
        · simp [isDupLoop, h1, h2, ih hrest hmem']

/-- Invariant of the Q&A history: every stamped round is at most the current
round counter, and the stamped rounds are non-decreasing in insertion
order. -/
def qaInv (s : Session) : Prop :=
  (∀ r ∈ s.qa_history, r.round ≤ s.round_count) ∧
    (s.qa_history.map QARecord.round).Sorted (· ≤ ·)

theorem qaInv_add_qa_round {s : Session} (h : qaInv s) (q a : List String)
    (now : String) : qaInv (add_qa_round s q a now) := by
  obtain ⟨h1, h2⟩ := h
  constructor
  · intro r hr
    simp only [add_qa_round, List.mem_append, List.mem_map] at hr
    rcases hr with hr | ⟨p, _, rfl⟩
    · exact le_trans (h1 r hr) (Nat.le_succ _)
    · exact le_refl _
  · simp only [add_qa_round, List.map_append, List.map_map]
    have hconst : ((q.zip a).map
        (QARecord.round ∘ fun p => ⟨s.round_count + 1, p.1, p.2, now⟩)) =
        List.replicate (q.zip a).length (s.round_count + 1) :=
      List.map_const' _ _
    rw [List.Sorted, List.pairwise_append, hconst]
    refine ⟨h2, ?_, ?_⟩
    · simp [List.pairwise_replicate]
    · intro x hx y hy
      rw [List.eq_of_mem_replicate hy]
      obtain ⟨r, hr, rfl⟩ := List.mem_map.mp hx
      exact le_trans (h1 r hr) (Nat.le_succ _)

theorem qaInv_applyRounds (calls : List (List String × List String × String)) :
    ∀ s : Session, qaInv s → qaInv (applyRounds s calls) := by
  induction calls with
  | nil => exact fun s h => h
  | cons c rest ih =>
    exact fun s h => ih _ (qaInv_add_qa_round h c.1 c.2.1 c.2.2)

theorem qaInv_init : qaInv initSession := by
  constructor
  · intro r hr; simp [initSession] at hr
  · simp [initSession, List.Sorted]

/-- The exact rational comparison `similarity > 0.7` is the integer
cross-multiplication used in `nearDupCheck`. -/
theorem similarity_gt_iff (a b : List String)
    (hb : 0 < min a.length b.length) :
    similarity a b > 0.7 ↔
      10 * interCount a b > 7 * min a.length b.length := by
  have hm : (0 : ℚ) < (min a.length b.length : ℚ) := by exact_mod_cast hb
  rw [similarity, gt_iff_lt, lt_div_iff₀ hm,
    show (0.7 : ℚ) = 7 / 10 by norm_num, div_mul_eq_mul_div,
    div_lt_iff₀ (by norm_num : (0 : ℚ) < 10), gt_iff_lt]
  constructor
  · intro h
    have h10 : (7 * min a.length b.length : ℚ) < 10 * interCount a b := by
      push_cast
      linarith
    exact_mod_cast h10
  · intro h
    have h10 : (7 * (min a.length b.length : ℚ)) < 10 * (interCount a b : ℚ) := by
      exact_mod_cast h
    linarith

/-! ## Claim theorems -/

/-- Claim C3: for every in-memory session state, `save()` followed by
`load()` on the same store succeeds on both ends and restores
`product_name`, `round_count`, `qa_history` and `content_ideas` exactly
(`last_updated` is regenerated into the document and is not a field of the
in-memory state, so it is outside the comparison). -/
theorem C3_save_load_round_trip (s : Session) (now : String) :
    save s now true = (some (saveDoc s now), true) ∧
      load s (FileState.good (saveDoc s now)) = (true, s) := by
  exact ⟨rfl, rfl⟩

/-- Claim C5, counterexample: `load` of a document whose `content_ideas`
holds the legacy bare string `"hello"` succeeds but keeps the entry as a bare
string — it is not upgraded to the dict with title `"hello"` and empty
summary. -/
theorem C5_counterexample :
    (load initSession (FileState.good ⟨"P", 0, [], [StoredIdea.str "hello"], "ts"⟩)).1
        = true ∧
      (load initSession
          (FileState.good ⟨"P", 0, [], [StoredIdea.str "hello"], "ts"⟩)).2.content_ideas
        = [StoredIdea.str "hello"] ∧
      [StoredIdea.str "hello"] ≠ [StoredIdea.obj "hello" ""] := by
  exact ⟨rfl, rfl, by decide⟩

/-- Claim C5, amended: a successful `load()` repopulates `content_ideas`
with the persisted entries exactly as stored — legacy bare strings are
accepted but kept as bare strings, not upgraded (the string-to-dict upgrade
lives in `add_content_ideas`, which applies it to its own input entries);
dict-shaped entries are likewise taken unchanged. -/
theorem C5_amended_raw_load (s : Session) (d : SavedDoc) :
    load s (FileState.good d) =
      (true, ⟨d.product_name, d.qa_history, d.content_ideas, d.rounds⟩) := rfl

/-- Claim C6: `load()` returns `false` when the file is missing and `false`
on any parse or I/O failure, leaving every in-memory field exactly as it was;
`load` is total in the model because the Python body catches every exception
(`except Exception`), so none propagates to the caller. -/
theorem C6_load_failure_semantics (s : Session) :
    load s FileState.missing = (false, s) ∧
      load s FileState.corrupt = (false, s) := ⟨rfl, rfl⟩

/-- Claim C7: `add_qa_round` increments `round_count` by exactly one and
stamps every record appended in that call with the new value; the two-call
example from a fresh store yields `round_count = 2` and stamped rounds
`[1, 1, 2]` in insertion order; and after any sequence of `add_qa_round`
calls from a fresh store the stamped rounds are monotonically
non-decreasing. -/
theorem C7_round_numbering :
    (∀ (s : Session) (q a : List String) (now : String),
        (add_qa_round s q a now).round_count = s.round_count + 1 ∧
          (add_qa_round s q a now).qa_history =
            s.qa_history ++ (q.zip a).map
              (fun p => ⟨s.round_count + 1, p.1, p.2, now⟩)) ∧
    ((add_qa_round (add_qa_round initSession ["Q1", "Q2"] ["A1", "A2"] "t1")
        ["Q3"] ["A3"] "t2").round_count = 2 ∧
      (add_qa_round (add_qa_round initSession ["Q1", "Q2"] ["A1", "A2"] "t1")
        ["Q3"] ["A3"] "t2").qa_history.map QARecord.round = [1, 1, 2]) ∧
    (∀ calls : List (List String × List String × String),
        ((applyRounds initSession calls).qa_history.map
          QARecord.round).Sorted (· ≤ ·)) := by
  refine ⟨fun s q a now => ⟨rfl, rfl⟩, ⟨rfl, rfl⟩, fun calls => ?_⟩
  exact (qaInv_applyRounds calls initSession qaInv_init).2

/-- Claim C8, counterexample: called with two questions and one answer,
`add_qa_round` does not fail with an invalid-input error — it increments the
round counter and appends the zipped pair, dropping the unmatched
question. -/
theorem C8_counterexample :
    (add_qa_round initSession ["Q1", "Q2"] ["A1"] "t").round_count = 1 ∧
      (add_qa_round initSession ["Q1", "Q2"] ["A1"] "t").qa_history =
        [⟨1, "Q1", "A1", "t"⟩] := ⟨rfl, rfl⟩

/-- Claim C8, amended: for every pair of question and answer sequences of
different lengths, `add_qa_round` does not fail: it increments `round_count`
by one and appends one record per `zip` pair — `min` of the two lengths —
silently dropping the tail of the longer sequence. -/
theorem C8_amended_zip_truncation (s : Session) (q a : List String)
    (now : String) (_h : q.length ≠ a.length) :
    (add_qa_round s q a now).round_count = s.round_count + 1 ∧
      (add_qa_round s q a now).qa_history.length =
        s.qa_history.length + min q.length a.length ∧
      (add_qa_round s q a now).qa_history =
        s.qa_history ++ (q.zip a).map
          (fun p => ⟨s.round_count + 1, p.1, p.2, now⟩) := by
  refine ⟨rfl, ?_, rfl⟩
  simp [add_qa_round, List.length_zip]

theorem C8_amended_zip_truncation_witness :
    (add_qa_round initSession ["Q1", "Q2"] ["A1"] "t").round_count = 0 + 1 ∧
      (add_qa_round initSession ["Q1", "Q2"] ["A1"] "t").qa_history.length =
        0 + min 2 1 ∧
      (add_qa_round initSession ["Q1", "Q2"] ["A1"] "t").qa_history =
        [] ++ (["Q1", "Q2"].zip ["A1"]).map (fun p => ⟨0 + 1, p.1, p.2, "t"⟩) :=
  C8_amended_zip_truncation initSession ["Q1", "Q2"] ["A1"] "t" (by decide)

/-- Claim C9: calling `start_autosave` while autosave is already enabled is
a no-op — the flag, the registered worker thread and the count of threads
ever spawned are all unchanged. -/
theorem C9_idempotent_start (st : AutosaveState) (newThread : Nat)
    (h : st.autosave_enabled = true) : start_autosave st newThread = st := by
  simp [start_autosave, h]

theorem C9_idempotent_start_witness :
    start_autosave ⟨true, some 0, 1⟩ 7 = ⟨true, some 0, 1⟩ :=
  C9_idempotent_start ⟨true, some 0, 1⟩ 7 rfl

/-- Claim C1: the near-duplicate test fires only when both normalized titles
are longer than 20 characters and both whitespace-token word sets have more
than 3 words, and in that case it judges the candidate a duplicate exactly
when `|intersection| / min(|words_new|, |words_existing|) > 0.7`; over an
all-dict collection, the similarity loop reports a duplicate exactly when
some existing entry is normalized-equal to the candidate or fires the
near-duplicate test. -/
theorem C1_near_duplicate_rule :
    (∀ tn en : String,
        nearDupCheck tn en = true ↔
          pyLen tn > 20 ∧ pyLen en > 20 ∧
            (pyWordSet tn).length > 3 ∧ (pyWordSet en).length > 3 ∧
            similarity (pyWordSet tn) (pyWordSet en) > 0.7) ∧
    (∀ (tn : String) (acc : List StoredIdea), allObj acc = true →
        (isDupLoop tn acc = some true ↔
          ∃ t su, StoredIdea.obj t su ∈ acc ∧
            (tn = pyStrip (pyLower t) ∨
              nearDupCheck tn (pyStrip (pyLower t)) = true))) := by
  constructor
  · intro tn en
    by_cases ha : pyLen tn > 20 ∧ pyLen en > 20
    · by_cases hb : (pyWordSet tn).length > 3 ∧ (pyWordSet en).length > 3
      · have hstep : nearDupCheck tn en =
            decide (10 * interCount (pyWordSet tn) (pyWordSet en) >
              7 * min (pyWordSet tn).length (pyWordSet en).length) := by
          simp [nearDupCheck, ha.1, ha.2, hb.1, hb.2]
        have hmin : 0 < min (pyWordSet tn).length (pyWordSet en).length := by
          omega
        rw [hstep, decide_eq_true_eq]
        constructor
        · intro hgt
          exact ⟨ha.1, ha.2, hb.1, hb.2, (similarity_gt_iff _ _ hmin).mpr hgt⟩
        · rintro ⟨_, _, _, _, hsim⟩
          exact (similarity_gt_iff _ _ hmin).mp hsim
      · have hstep : nearDupCheck tn en = false := by
          simp only [nearDupCheck]
          rw [if_pos (by simp [ha.1, ha.2]),
            if_neg (fun hc => hb (by simpa using hc))]
        rw [hstep]
        simp only [Bool.false_eq_true, false_iff]
        rintro ⟨_, _, h3, h4, _⟩
        exact hb ⟨h3, h4⟩
    · have hstep : nearDupCheck tn en = false := by
        simp only [nearDupCheck]
        rw [if_neg (fun hc => ha (by simpa using hc))]
      rw [hstep]
      simp only [Bool.false_eq_true, false_iff]
      rintro ⟨h1, h2, _, _, _⟩
      exact ha ⟨h1, h2⟩
  · intro tn acc h
    induction acc with
    | nil => simp [isDupLoop]
    | cons e rest ih =>
      obtain ⟨he, hrest⟩ := allObj_cons h
      cases e with
      | str s => simp [StoredIdea.isObj] at he
      | obj t su =>
        by_cases h1 : tn = pyStrip (pyLower t)
        · have hstep : isDupLoop tn (StoredIdea.obj t su :: rest) =
              some true := by
            simp [isDupLoop, h1]
          rw [hstep]
          exact ⟨fun _ => ⟨t, su, List.mem_cons_self _ _, Or.inl h1⟩,
            fun _ => rfl⟩
        · by_cases h2 : nearDupCheck tn (pyStrip (pyLower t)) = true
          · have hstep : isDupLoop tn (StoredIdea.obj t su :: rest) =
                some true := by
              simp [isDupLoop, h1, h2]
            rw [hstep]
            exact ⟨fun _ => ⟨t, su, List.mem_cons_self _ _, Or.inr h2⟩,
              fun _ => rfl⟩
          · have hstep : isDupLoop tn (StoredIdea.obj t su :: rest) =
                isDupLoop tn rest := by
              simp [isDupLoop, h1, h2]
            rw [hstep, ih hrest]
            constructor
            · rintro ⟨t', su', hmem, hor⟩
              exact ⟨t', su', List.mem_cons_of_mem _ hmem, hor⟩
            · rintro ⟨t', su', hmem, hor⟩
              rcases List.mem_cons.mp hmem with heq | hmem'
              · obtain ⟨rfl, rfl⟩ := StoredIdea.obj.injEq .. |>.mp heq.symm
                rcases hor with hor | hor
                · exact absurd hor h1
                · exact absurd hor h2
              · exact ⟨t', su', hmem', hor⟩

theorem C1_near_duplicate_rule_witness :
    isDupLoop "how to use wireless headphones while running"
      [StoredIdea.obj "How to Use Wireless Headphones for Running" "g"] =
      some true :=
  (C1_near_duplicate_rule.2 "how to use wireless headphones while running"
    [StoredIdea.obj "How to Use Wireless Headphones for Running" "g"]
    (by decide)).mpr
    ⟨"How to Use Wireless Headphones for Running", "g", by decide,
      Or.inr (by decide)⟩

/-- Claim C2: `add_content_ideas` processes the input entries in order, each
candidate being checked against the collection as it stands at that moment
(first conjunct: the loop threads the accumulated collection through each
step; last conjunct: a concrete same-call near-duplicate is filtered against
an idea appended earlier in the same call); entries whose trimmed title is
empty are skipped; and the non-duplicate ideas are appended after the
existing collection, preserving their relative input order (their trimmed
dict forms are a subsequence of the input in input order). -/
theorem C2_input_order_and_incremental_dedup :
    (∀ (acc : List StoredIdea) (idea : StoredIdea) (rest : List StoredIdea),
        addIdeasList acc (idea :: rest) =
          (processIdea acc idea).bind fun acc2 => addIdeasList acc2 rest) ∧
    (∀ (acc : List StoredIdea) (idea : StoredIdea) (rest : List StoredIdea),
        pyStrip (toDict idea).title = "" →
        addIdeasList acc (idea :: rest) = addIdeasList acc rest) ∧
    (∀ acc ideas : List StoredIdea, allObj acc = true →
        ∃ news, addIdeasList acc ideas = some (acc ++ news) ∧
          news.Sublist (ideas.map storedForm)) ∧
    (addIdeasList []
        [StoredIdea.obj "How to Use Wireless Headphones for Running" "a",
         StoredIdea.obj "How to use wireless headphones while running" "b"] =
      some [StoredIdea.obj "How to Use Wireless Headphones for Running" "a"]) := by
  refine ⟨?_, ?_, ?_, by decide⟩
  · intro acc idea rest
    cases hp : processIdea acc idea <;> simp [addIdeasList, hp]
  · intro acc idea rest h0
    have hp : processIdea acc idea = some acc := by
      unfold processIdea
      simp [h0]
    simp [addIdeasList, hp]
  · intro acc ideas h
    obtain ⟨news, h1, h2, _⟩ := addIdeasList_spec ideas acc h
    exact ⟨news, h1, h2⟩

theorem C2_input_order_and_incremental_dedup_witness :
    ∃ news, addIdeasList [] [StoredIdea.str " Hi "] = some ([] ++ news) ∧
      news.Sublist ([StoredIdea.str " Hi "].map storedForm) :=
  C2_input_order_and_incremental_dedup.2.2.1 [] [StoredIdea.str " Hi "] rfl

/-- Claim C4: a candidate whose title agrees with a stored title after
lowercasing and trimming (that is, differs only by letter case and/or
leading-and-trailing whitespace) is rejected, so exactly one of the two is
stored; and two nonempty titles whose normalized forms are distinct and at
most 20 characters long are both kept — the near-duplicate path is skipped
below the 20-character threshold. -/
theorem C4_exact_dup_and_short_title_bypass :
    (∀ (acc : List StoredIdea) (cand csum et esu : String),
        allObj acc = true → StoredIdea.obj et esu ∈ acc →
        pyStrip (pyLower (pyStrip cand)) = pyStrip (pyLower et) →
        addIdeasList acc [StoredIdea.obj cand csum] = some acc) ∧
    (∀ t1 s1 t2 s2 : String,
        pyStrip t1 ≠ "" → pyStrip t2 ≠ "" →
        pyLen (pyStrip (pyLower (pyStrip t1))) ≤ 20 →
        pyLen (pyStrip (pyLower (pyStrip t2))) ≤ 20 →
        pyStrip (pyLower (pyStrip t1)) ≠ pyStrip (pyLower (pyStrip t2)) →
        addIdeasList [] [StoredIdea.obj t1 s1, StoredIdea.obj t2 s2] =
          some [StoredIdea.obj (pyStrip t1) (pyStrip s1),
                StoredIdea.obj (pyStrip t2) (pyStrip s2)]) := by
  constructor
  · intro acc cand csum et esu hobj hmem hnorm
    have hp : processIdea acc (StoredIdea.obj cand csum) = some acc := by
      unfold processIdea
      by_cases h0 : pyStrip (toDict (StoredIdea.obj cand csum)).title = ""
      · simp [h0]
      · obtain ⟨b1, hb1⟩ := anyExactDup_isSome hobj (pyStrip cand)
        cases b1 with
        | true => simp [toDict] at h0 hb1 ⊢; simp [h0, hb1]
        | false =>
          have hd : isDupLoop (pyStrip (pyLower (pyStrip cand))) acc =
              some true := isDupLoop_of_mem hobj hmem hnorm
          simp [toDict] at h0 hb1 ⊢
          simp [h0, hb1, hd]
    simp [addIdeasList, hp]
  · intro t1 s1 t2 s2 h1 h2 hl1 hl2 hne
    have hraw : pyStrip t1 ≠ pyStrip t2 := fun hh => hne (by rw [hh])
    have p1 : processIdea [] (StoredIdea.obj t1 s1) =
        some [StoredIdea.obj (pyStrip t1) (pyStrip s1)] := by
      unfold processIdea
      simp [toDict, h1, anyExactDup, isDupLoop]
    have hnd : nearDupCheck (pyStrip (pyLower (pyStrip t2)))
        (pyStrip (pyLower (pyStrip t1))) = false := by
      simp only [nearDupCheck]
      rw [if_neg]
      intro hc
      have := (by simpa using hc :
        pyLen (pyStrip (pyLower (pyStrip t2))) > 20 ∧
          pyLen (pyStrip (pyLower (pyStrip t1))) > 20)
      omega
    have p2 : processIdea [StoredIdea.obj (pyStrip t1) (pyStrip s1)]
        (StoredIdea.obj t2 s2) =
        some [StoredIdea.obj (pyStrip t1) (pyStrip s1),
              StoredIdea.obj (pyStrip t2) (pyStrip s2)] := by
      unfold processIdea
      have ha : anyExactDup (pyStrip t2)
          [StoredIdea.obj (pyStrip t1) (pyStrip s1)] = some false := by
        simp [anyExactDup, hraw]
      have hd : isDupLoop (pyStrip (pyLower (pyStrip t2)))
          [StoredIdea.obj (pyStrip t1) (pyStrip s1)] = some false := by
        simp [isDupLoop, Ne.symm hne, hnd]
      simp [toDict, h2, ha, hd]
    simp [addIdeasList, p1, p2]

theorem C4_exact_dup_and_short_title_bypass_witness :
    addIdeasList [StoredIdea.obj "How To Use X" "a"]
        [StoredIdea.obj "how to use x" "b"] =
        some [StoredIdea.obj "How To Use X" "a"] ∧
      addIdeasList [] [StoredIdea.obj "Buy Now" "x", StoredIdea.obj "Buy Soon" "y"] =
        some [StoredIdea.obj (pyStrip "Buy Now") (pyStrip "x"),
              StoredIdea.obj (pyStrip "Buy Soon") (pyStrip "y")] :=
  ⟨C4_exact_dup_and_short_title_bypass.1 [StoredIdea.obj "How To Use X" "a"]
      "how to use x" "b" "How To Use X" "a" (by decide) (by decide) (by decide),
    C4_exact_dup_and_short_title_bypass.2 "Buy Now" "x" "Buy Soon" "y"
      (by decide) (by decide) (by decide) (by decide) (by decide)⟩

/-- Claim C10: `add_content_ideas` also accepts legacy bare-string input
entries, treating a string `s` exactly like the dict with title `s` and
empty summary before trimming and deduplication; and every idea it stores is
a dict whose title and summary are the trimmed input fields.  (The spec
requires bare-string acceptance of the loader only; the code also grants it
to `add_content_ideas`.) -/
theorem C10_string_inputs_and_trimmed_storage :
    (∀ (acc : List StoredIdea) (t : String) (rest : List StoredIdea),
        addIdeasList acc (StoredIdea.str t :: rest) =
          addIdeasList acc (StoredIdea.obj t "" :: rest)) ∧
    (∀ (acc ideas res : List StoredIdea), allObj acc = true →
        addIdeasList acc ideas = some res →
        ∀ e ∈ res, e ∈ acc ∨
          ∃ a b, e = StoredIdea.obj (pyStrip a) (pyStrip b)) := by
  constructor
  · intro acc t rest
    rfl
  · intro acc ideas res h hres e he
    obtain ⟨news, h1, h2, _⟩ := addIdeasList_spec ideas acc h
    rw [hres] at h1
    obtain rfl := Option.some.injEq .. |>.mp h1
    rcases List.mem_append.mp he with he | he
    · exact Or.inl he
    · have := h2.subset he
      obtain ⟨i, _, rfl⟩ := List.mem_map.mp this
      exact Or.inr ⟨(toDict i).title, (toDict i).summary, rfl⟩

theorem C10_string_inputs_and_trimmed_storage_witness :
    StoredIdea.obj "hi" "" ∈ ([] : List StoredIdea) ∨
      ∃ a b, StoredIdea.obj "hi" "" = StoredIdea.obj (pyStrip a) (pyStrip b) :=
  C10_string_inputs_and_trimmed_storage.2 [] [StoredIdea.str " hi "]
    [StoredIdea.obj "hi" ""] rfl (by decide) (StoredIdea.obj "hi" "")
    (by decide)

end AICP
